import Mathlib

/-!
Shallow embedding of the Facebook-post synchronization engine of
`src/sync.js` (news-backend).  Text is modelled as `List Char`; the
persistent store (`articles` table plus the `sync_meta` row) is an
explicit state record; the Graph-API fetch is a parameter of the run.
-/

set_option maxRecDepth 4000

/-- Cooldown constant from `src/sync.js` line 5: `5 * 60 * 1000` ms. -/
def SYNC_COOLDOWN : Int := 5 * 60 * 1000

/-- The ad/footer separator literal of `src/sync.js` line 80: a run of 44
dash characters. -/
def SEPARATOR : List Char := List.replicate 44 '-'

/-- `s.split("\n")`-style splitting at a single character, JS semantics:
the result always has one more segment than there are separators. -/
def splitOnChar (c : Char) : List Char → List (List Char)
  | [] => [[]]
  | d :: rest =>
      let r := splitOnChar c rest
      if d = c then [] :: r else (d :: r.headD []) :: r.tail

/-- JavaScript `String.prototype.trim`: drop whitespace at both ends. -/
def trimChars (s : List Char) : List Char :=
  ((s.dropWhile Char.isWhitespace).reverse.dropWhile Char.isWhitespace).reverse

/-- `lines.join("\n")` from `src/sync.js` line 77. -/
def joinNl (ls : List (List Char)) : List Char :=
  (ls.intersperse ['\n']).flatten

/-- The non-empty trimmed lines of a message: `post.message.split("\n")
.map(l => l.trim()).filter(Boolean)` of `src/sync.js` lines 60-63. -/
def linesOf (m : List Char) : List (List Char) :=
  ((splitOnChar '\n' m).map trimChars).filter (fun l => l ≠ [])

/-- `p.isPrefixOf s` as a Bool, written out to keep the embedding
self-contained: does `s` start with `p`? -/
def startsWith : List Char → List Char → Bool
  | _, [] => true
  | [], _ :: _ => false
  | c :: s, d :: p => c = d && startsWith s p

/-- JavaScript `s.includes(sep)`: does `sep` occur as a contiguous
substring of `s`? -/
def containsSeq (sep : List Char) : List Char → Bool
  | [] => startsWith [] sep
  | c :: rest => startsWith (c :: rest) sep || containsSeq sep rest

/-- JavaScript `s.split(sep)[0]`: the text before the first occurrence of
`sep` (all of `s` when `sep` does not occur). -/
def takeBeforeSeq (sep : List Char) : List Char → List Char
  | [] => []
  | c :: rest =>
      if startsWith (c :: rest) sep then []
      else c :: takeBeforeSeq sep rest

/-- One item of the Graph API response (`fields` of `src/sync.js`
line 129): `id,message,full_picture,created_time,permalink_url`. -/
structure FeedItem where
  id : String
  message : Option (List Char)
  full_picture : Option String
  created_time : String
  permalink_url : Option String
deriving DecidableEq

/-- The value produced by `parsePost` (`src/sync.js` lines 85-92). -/
structure ParsedArticle where
  fb_post_id : String
  headline : List Char
  body : List Char
  image_url : Option String
  published_at : String
  source_url : Option String
deriving DecidableEq

/-- JavaScript `x || null` on an optional string: empty string is falsy
(`src/sync.js` line 89). -/
def jsOrNull (s : Option String) : Option String :=
  match s with
  | none => none
  | some v => if v = "" then none else some v

/-- `parsePost` of `src/sync.js` lines 57-93: split the message into
non-empty trimmed lines; headline is the first line, shortened to its
first sentence when it contains a period, is longer than 100 characters
and the prefix before the first period has at least 20 characters; body
is the remaining lines joined, truncated at the first 44-dash separator
when present, then trimmed. -/
def parsePost (post : FeedItem) : Option ParsedArticle :=
  match post.message with
  | none => none
  | some m =>
      if m = [] then none
      else
        match linesOf m with
        | [] => none
        | l0 :: rest =>
            let headline :=
              if l0.contains '.' ∧ 100 < l0.length then
                let firstSentence := (splitOnChar '.' l0).headD []
                if 20 ≤ firstSentence.length then firstSentence ++ ['.'] else l0
              else l0
            let body0 := joinNl rest
            let body1 :=
              if containsSeq SEPARATOR body0 then takeBeforeSeq SEPARATOR body0
              else body0
            some { fb_post_id := post.id
                   headline := headline
                   body := trimChars body1
                   image_url := jsOrNull post.full_picture
                   published_at := post.created_time
                   source_url := post.permalink_url }

/-- A row of the `articles` table (columns touched by the sync engine;
`fb_post_id` is nullable and UNIQUE in the schema). -/
structure Article where
  fb_post_id : Option String
  headline : List Char
  body : List Char
  image_url : Option String
  published_at : String
  source_url : Option String
  source : String
  is_modified : Bool
  is_hidden : Bool
  created_at : String
deriving DecidableEq

/-- The row inserted by `src/sync.js` lines 155-178: parsed fields plus
`source = 'facebook'`, `is_modified = 0`, `is_hidden = 0`. -/
def mkArticle (art : ParsedArticle) (nowIso : String) : Article :=
  { fb_post_id := some art.fb_post_id
    headline := art.headline
    body := art.body
    image_url := art.image_url
    published_at := art.published_at
    source_url := art.source_url
    source := "facebook"
    is_modified := false
    is_hidden := false
    created_at := nowIso }

/-- `getExistingPostIds` of `src/sync.js` lines 44-52:
`SELECT fb_post_id FROM articles WHERE source = 'facebook'`. -/
def getExistingPostIds (articles : List Article) : List (Option String) :=
  (articles.filter (fun a => a.source == "facebook")).map (fun a => a.fb_post_id)

/-- Persistent store state visible to the sync run: the `articles` table
and the parsed `last_fb_sync` timestamp. -/
structure SyncState where
  articles : List Article
  lastSync : Int
deriving DecidableEq

/-- `shouldSync` of `src/sync.js` lines 35-39:
`now - lastSync >= SYNC_COOLDOWN`. -/
def shouldSyncAt (lastSync now : Int) : Bool :=
  decide (SYNC_COOLDOWN ≤ now - lastSync)

/-- Accumulator of the ingestion loop of `src/sync.js` lines 136-184. -/
structure LoopAcc where
  inserted : Nat
  skippedExisting : Nat
  skippedNoContent : Nat
  articles : List Article
deriving DecidableEq

/-- One iteration of the `for (const post of posts)` loop
(`src/sync.js` lines 140-184): skip-and-count when the id is in the
snapshot; skip-and-count when `parsePost` returns null; otherwise try the
INSERT, which succeeds exactly when no stored row already carries this
`fb_post_id` (the UNIQUE constraint); a failed insert increments no
counter (the error is swallowed at lines 170-172 and
`result.inserted = false` skips the count at line 180). -/
def processPost (ids : List (Option String)) (nowIso : String)
    (acc : LoopAcc) (post : FeedItem) : LoopAcc :=
  if some post.id ∈ ids then
    { acc with skippedExisting := acc.skippedExisting + 1 }
  else
    match parsePost post with
    | none => { acc with skippedNoContent := acc.skippedNoContent + 1 }
    | some art =>
        if some post.id ∈ acc.articles.map (fun a => a.fb_post_id) then acc
        else
          { acc with
              inserted := acc.inserted + 1
              articles := acc.articles ++ [mkArticle art nowIso] }

/-- The whole ingestion loop, in source order. -/
def processPosts (ids : List (Option String)) (nowIso : String)
    (acc : LoopAcc) : List FeedItem → LoopAcc
  | [] => acc
  | post :: rest => processPosts ids nowIso (processPost ids nowIso acc post) rest

/-- The summary object returned by `syncPosts` (`src/sync.js`
lines 189-195). -/
structure SyncRunResult where
  inserted : Nat
  skippedExisting : Nat
  skippedNoContent : Nat
  total : Nat
deriving DecidableEq

/-- Possible outcomes of one `syncPosts` invocation: the cooldown skip
object, the thrown missing-credentials error, the propagated fetch
failure, or the completed summary. -/
inductive SyncOutcome where
  | skipped (waitTime : Int)
  | envError
  | feedError
  | completed (res : SyncRunResult)
deriving DecidableEq

/-- `syncPosts` of `src/sync.js` lines 99-199 as a function of the
frozen clock `now`, the credential presence flag, the fetch outcome and
the store state.  `Math.round(a / 1000)` for the non-negative remaining
time `a` is `(a + 500) / 1000` in integer division. -/
def syncPosts (force credsOk : Bool) (now : Int) (nowIso : String)
    (fetch : Except Unit (List FeedItem)) (st : SyncState) :
    SyncOutcome × SyncState :=
  if force = false ∧ shouldSyncAt st.lastSync now = false then
    (SyncOutcome.skipped ((SYNC_COOLDOWN - (now - st.lastSync) + 500) / 1000), st)
  else if credsOk = false then
    (SyncOutcome.envError, st)
  else
    match fetch with
    | Except.error _ => (SyncOutcome.feedError, st)
    | Except.ok posts =>
        let existingIds := getExistingPostIds st.articles
        let acc := processPosts existingIds nowIso
          { inserted := 0, skippedExisting := 0, skippedNoContent := 0,
            articles := st.articles } posts
        (SyncOutcome.completed
          { inserted := acc.inserted
            skippedExisting := acc.skippedExisting
            skippedNoContent := acc.skippedNoContent
            total := posts.length },
         { articles := acc.articles, lastSync := now })

/-- The module-level `lazySyncPromise` slot of `src/sync.js` line 205
(`inFlight` is whether the slot is non-null) together with an
instrumentation counter of Feed Source fetch cycles started so far. -/
structure LazyState where
  inFlight : Bool
  fetchCount : Nat
deriving DecidableEq

/-- What one `lazySync` invocation returns to its caller. -/
inductive LazyOutcome where
  | joinedExisting
  | skippedNotDue
  | startedRun
deriving DecidableEq

/-- One `lazySync` invocation (`src/sync.js` lines 207-225) as an atomic
step over the slot: the `if (lazySyncPromise)` test at line 209 runs
before any suspension point, so while a run is in flight the call
returns the stored promise and fetches nothing; otherwise, when the
cooldown has passed, it stores the promise of a forced `syncPosts` run,
which performs one fetch cycle. -/
def lazySyncCall (st : LazyState) (due : Bool) : LazyOutcome × LazyState :=
  if st.inFlight then (LazyOutcome.joinedExisting, st)
  else if due then
    (LazyOutcome.startedRun, { inFlight := true, fetchCount := st.fetchCount + 1 })
  else (LazyOutcome.skippedNotDue, st)

/-- A direct `syncPosts(force = true)` invocation with credentials
present, seen through the same instrumentation: `syncPosts`
(`src/sync.js` lines 99-199) never reads `lazySyncPromise`, so it
performs its fetch cycle whatever the state of the in-flight slot. -/
def directSyncCall (st : LazyState) : LazyState :=
  { st with fetchCount := st.fetchCount + 1 }

/-- Outcome of the callback of `db.get` in `getLastSyncTime`
(`src/sync.js` lines 10-17): a query error, no matching row, or the
stored text of `sync_meta.last_fb_sync`. -/
inductive SyncMetaRead where
  | dbError
  | noRow
  | value (s : List Char)
deriving DecidableEq

/-- Decimal digit test for the model of `parseInt`. -/
def isDecDigit (c : Char) : Bool := '0' ≤ c && c ≤ '9'

/-- Hexadecimal digit test for the model of `parseInt`. -/
def isHexDigitCh (c : Char) : Bool :=
  ('0' ≤ c && c ≤ '9') || ('a' ≤ c && c ≤ 'f') || ('A' ≤ c && c ≤ 'F')

/-- Numeric value of a digit accepted by `isHexDigitCh`. -/
def hexDigitVal (c : Char) : Nat :=
  if '0' ≤ c && c ≤ '9' then c.toNat - '0'.toNat
  else if 'a' ≤ c && c ≤ 'f' then c.toNat - 'a'.toNat + 10
  else c.toNat - 'A'.toNat + 10

/-- Value of a digit string in the given base. -/
def digitsVal (base : Nat) (ds : List Char) : Nat :=
  ds.foldl (fun acc c => acc * base + hexDigitVal c) 0

/-- JavaScript `parseInt(s)` with no radix argument: skip leading
whitespace, read an optional sign, use base 16 after a `0x`/`0X` prefix
and base 10 otherwise, and give `NaN` (here `none`) when no digit
follows. -/
def jsParseInt (s : List Char) : Option Int :=
  let t := s.dropWhile Char.isWhitespace
  let signed : Int × List Char :=
    match t with
    | '-' :: r => (-1, r)
    | '+' :: r => (1, r)
    | _ => (1, t)
  match signed.2 with
  | '0' :: 'x' :: r =>
      let ds := r.takeWhile isHexDigitCh
      if ds = [] then none else some (signed.1 * (digitsVal 16 ds : Nat))
  | '0' :: 'X' :: r =>
      let ds := r.takeWhile isHexDigitCh
      if ds = [] then none else some (signed.1 * (digitsVal 16 ds : Nat))
  | t1 =>
      let ds := t1.takeWhile isDecDigit
      if ds = [] then none else some (signed.1 * (digitsVal 10 ds : Nat))

/-- `getLastSyncTime` of `src/sync.js` lines 10-17: the executor only
ever resolves (never rejects); an errored query or a missing row
resolves 0, and `parseInt(row.value) || 0` turns `NaN` (and 0 itself)
into 0. -/
def getLastSyncTime : SyncMetaRead → Int
  | SyncMetaRead.dbError => 0
  | SyncMetaRead.noRow => 0
  | SyncMetaRead.value s =>
      match jsParseInt s with
      | none => 0
      | some n => if n = 0 then 0 else n

/-- Proof-side predicate: feed item `p` can no longer be inserted
against the table `A` — its parse fails, or a row with its external id
is already stored (so the UNIQUE constraint rejects the INSERT). -/
def Blocked (A : List Article) (p : FeedItem) : Prop :=
  parsePost p = none ∨ some p.id ∈ A.map (fun a => a.fb_post_id)

/-- A parseable feed item used for concrete evaluations: two non-empty
lines, no period in the first. -/
def samplePost : FeedItem :=
  { id := "X"
    message := some ("Hello world news\nSome body".toList)
    full_picture := none
    created_time := "t"
    permalink_url := none }

/-- A stored record with an external identifier but provenance tag
`admin` rather than `facebook`. -/
def adminArticle : Article :=
  { fb_post_id := some "X"
    headline := []
    body := []
    image_url := none
    published_at := ""
    source_url := none
    source := "admin"
    is_modified := false
    is_hidden := false
    created_at := "" }

/-- First line for the headline test: 30 chars, a period, then 120 more
chars — 151 characters in total, prefix before the first period of
length 30. -/
def longLine : List Char := List.replicate 30 'A' ++ ['.'] ++ List.replicate 120 'B'

/-- Feed item whose message starts with `longLine`. -/
def longLinePost : FeedItem :=
  { id := "Z"
    message := some (longLine ++ ['\n'] ++ "rest".toList)
    full_picture := none
    created_time := "t"
    permalink_url := none }

/-- Message with a 46-dash run between body text and footer text. -/
def sepMessage : List Char :=
  "Head\nText before\n".toList ++ List.replicate 46 '-' ++ "\nfooter".toList

/-- Feed item carrying `sepMessage`. -/
def sepPost : FeedItem :=
  { id := "Y"
    message := some sepMessage
    full_picture := none
    created_time := "t"
    permalink_url := none }

/-- The first segment of a character split is the longest prefix free of
the separator. -/
theorem splitOnChar_headD (c : Char) (s : List Char) :
    (splitOnChar c s).headD [] = s.takeWhile (fun d => d != c) := by
  induction s with
  | nil => rfl
  | cons d rest ih =>
    by_cases h : d = c
    · subst h
      simp [splitOnChar, List.takeWhile_cons]
    · simp [splitOnChar, h, List.takeWhile_cons]
      simpa using ih

/-- `startsWith s p` holds exactly when `p` is a prefix of `s`. -/
theorem startsWith_iff (s p : List Char) :
    startsWith s p = true ↔ ∃ t, s = p ++ t := by
  induction p generalizing s with
  | nil =>
    simp [startsWith]
  | cons d p ih =>
    cases s with
    | nil =>
      simp [startsWith]
    | cons c s =>
      rw [startsWith]
      simp only [Bool.and_eq_true, decide_eq_true_eq, ih, List.cons_append]
      constructor
      · rintro ⟨rfl, t, rfl⟩
        exact ⟨t, rfl⟩
      · rintro ⟨t, h⟩
        injection h with h1 h2
        exact ⟨h1, t, h2⟩

/-- When `sep` occurs in `s`, the string decomposes as the part before
the first occurrence, then `sep`, then a remainder. -/
theorem takeBeforeSeq_decomp (sep : List Char) : ∀ s : List Char,
    containsSeq sep s = true → ∃ t, s = takeBeforeSeq sep s ++ sep ++ t := by
  intro s
  induction s with
  | nil =>
    intro h
    rw [containsSeq] at h
    rcases (startsWith_iff [] sep).mp h with ⟨t, ht⟩
    cases sep with
    | nil => exact ⟨[], by simp [takeBeforeSeq]⟩
    | cons a b => cases ht
  | cons c rest ih =>
    intro h
    by_cases hp : startsWith (c :: rest) sep = true
    · rcases (startsWith_iff _ _).mp hp with ⟨t, ht⟩
      refine ⟨t, ?_⟩
      rw [takeBeforeSeq, if_pos hp]
      simpa using ht
    · have h2 : containsSeq sep rest = true := by
        rw [containsSeq, Bool.or_eq_true] at h
        rcases h with hx | hx
        · exact absurd hx hp
        · exact hx
      rcases ih h2 with ⟨t, ht⟩
      refine ⟨t, ?_⟩
      rw [takeBeforeSeq, if_neg hp]
      simp only [List.cons_append]
      rw [← ht]

/-- No occurrence of `sep` starts inside the part before the first
occurrence. -/
theorem takeBeforeSeq_min (sep : List Char) : ∀ (s : List Char) (i : Nat),
    i < (takeBeforeSeq sep s).length → startsWith (s.drop i) sep = false := by
  intro s
  induction s with
  | nil =>
    intro i hi
    rw [takeBeforeSeq] at hi
    simp at hi
  | cons c rest ih =>
    intro i hi
    by_cases hp : startsWith (c :: rest) sep = true
    · rw [takeBeforeSeq, if_pos hp] at hi
      simp at hi
    · rw [takeBeforeSeq, if_neg hp] at hi
      cases i with
      | zero =>
        simpa using Bool.not_eq_true _ |>.mp hp
      | succ j =>
        rw [List.drop_succ_cons]
        refine ih j ?_
        simpa using hi

/-- The line list of the empty message is empty. -/
theorem linesOf_nil : linesOf [] = [] := rfl

/-- Anything in the dedup snapshot is the external id of some stored
row. -/
theorem mem_getExistingPostIds (A : List Article) (x : Option String)
    (h : x ∈ getExistingPostIds A) : x ∈ A.map (fun a => a.fb_post_id) := by
  simp only [getExistingPostIds, List.mem_map, List.mem_filter] at h
  rcases h with ⟨a, ⟨ha, _⟩, rfl⟩
  exact List.mem_map.mpr ⟨a, ha, rfl⟩

/-- Closed form of `parsePost` on a message whose line list is
non-empty. -/
theorem parsePost_eq (post : FeedItem) (m l0 : List Char) (rest : List (List Char))
    (hm : post.message = some m) (hl : linesOf m = l0 :: rest) :
    parsePost post = some
      { fb_post_id := post.id
        headline :=
          if l0.contains '.' ∧ 100 < l0.length then
            if 20 ≤ ((splitOnChar '.' l0).headD []).length then
              (splitOnChar '.' l0).headD [] ++ ['.']
            else l0
          else l0
        body := trimChars
          (if containsSeq SEPARATOR (joinNl rest) then
            takeBeforeSeq SEPARATOR (joinNl rest)
          else joinNl rest)
        image_url := jsOrNull post.full_picture
        published_at := post.created_time
        source_url := post.permalink_url } := by
  have hm0 : m ≠ [] := by
    intro h
    subst h
    rw [linesOf_nil] at hl
    cases hl
  unfold parsePost
  rw [hm]
  simp only []
  rw [if_neg hm0, hl]

/-- The parsed record carries the feed item's external identifier. -/
theorem parsePost_id (post : FeedItem) (art : ParsedArticle)
    (h : parsePost post = some art) : art.fb_post_id = post.id := by
  unfold parsePost at h
  rcases hm : post.message with _ | m
  · rw [hm] at h
    cases h
  · rw [hm] at h
    simp only [] at h
    by_cases hm0 : m = []
    · rw [if_pos hm0] at h
      cases h
    · rw [if_neg hm0] at h
      rcases hl : linesOf m with _ | ⟨l0, rest⟩
      · rw [hl] at h
        cases h
      · rw [hl] at h
        simp only [Option.some.injEq] at h
        rw [← h]

/-- One loop step only ever appends rows, so stored external ids are
preserved. -/
theorem processPost_fb_mono (ids : List (Option String)) (nowIso : String)
    (acc : LoopAcc) (q : FeedItem) (x : Option String)
    (h : x ∈ acc.articles.map (fun a => a.fb_post_id)) :
    x ∈ (processPost ids nowIso acc q).articles.map (fun a => a.fb_post_id) := by
  unfold processPost
  split
  · exact h
  · split
    · exact h
    · split
      · exact h
      · simp only [List.map_append, List.mem_append]
        exact Or.inl h

/-- The whole loop only ever appends rows. -/
theorem processPosts_fb_mono (ids : List (Option String)) (nowIso : String)
    (posts : List FeedItem) : ∀ (acc : LoopAcc) (x : Option String),
    x ∈ acc.articles.map (fun a => a.fb_post_id) →
    x ∈ (processPosts ids nowIso acc posts).articles.map (fun a => a.fb_post_id) := by
  induction posts with
  | nil => intro acc x h; exact h
  | cons q rest ih =>
    intro acc x h
    rw [processPosts]
    exact ih _ _ (processPost_fb_mono ids nowIso acc q x h)

/-- After a step on `q`, either `q` failed to parse or a row with its id
is stored. -/
theorem processPost_blocks (ids : List (Option String)) (nowIso : String)
    (acc : LoopAcc) (q : FeedItem)
    (hids : ∀ x, x ∈ ids → x ∈ acc.articles.map (fun a => a.fb_post_id)) :
    Blocked (processPost ids nowIso acc q).articles q := by
  by_cases hdup : some q.id ∈ ids
  · exact Or.inr (processPost_fb_mono ids nowIso acc q _ (hids _ hdup))
  · rcases hparse : parsePost q with _ | art
    · exact Or.inl hparse
    · by_cases hc : some q.id ∈ acc.articles.map (fun a => a.fb_post_id)
      · exact Or.inr (processPost_fb_mono ids nowIso acc q _ hc)
      · refine Or.inr ?_
        unfold processPost
        rw [if_neg hdup, hparse]
        simp only []
        rw [if_neg hc]
        simp only [List.map_append, List.mem_append, List.map_cons, List.map_nil,
          List.mem_cons]
        refine Or.inr (Or.inl ?_)
        rw [mkArticle, parsePost_id q art hparse]

/-- Every item of the batch is blocked against the table the loop
leaves behind. -/
theorem processPosts_blocked (ids : List (Option String)) (nowIso : String)
    (posts : List FeedItem) : ∀ (acc : LoopAcc),
    (∀ x, x ∈ ids → x ∈ acc.articles.map (fun a => a.fb_post_id)) →
    ∀ p, p ∈ posts → Blocked (processPosts ids nowIso acc posts).articles p := by
  induction posts with
  | nil => intro acc _ p hp; cases hp
  | cons q rest ih =>
    intro acc hids p hp
    have hids2 : ∀ x, x ∈ ids →
        x ∈ (processPost ids nowIso acc q).articles.map (fun a => a.fb_post_id) :=
      fun x hx => processPost_fb_mono ids nowIso acc q x (hids x hx)
    rw [processPosts]
    rcases List.mem_cons.mp hp with rfl | hp2
    · rcases processPost_blocks ids nowIso acc p hids with hb | hb
      · exact Or.inl hb
      · exact Or.inr (processPosts_fb_mono ids nowIso rest _ _ hb)
    · exact ih _ hids2 p hp2

/-- A step on a blocked item changes neither the stored rows nor the
inserted counter. -/
theorem processPost_noop (ids : List (Option String)) (nowIso : String)
    (acc : LoopAcc) (q : FeedItem) (hb : Blocked acc.articles q) :
    (processPost ids nowIso acc q).articles = acc.articles ∧
    (processPost ids nowIso acc q).inserted = acc.inserted := by
  unfold processPost
  by_cases hdup : some q.id ∈ ids
  · rw [if_pos hdup]
    exact ⟨rfl, rfl⟩
  · rw [if_neg hdup]
    rcases hparse : parsePost q with _ | art
    · exact ⟨rfl, rfl⟩
    · rcases hb with hb | hb
      · rw [hb] at hparse
        cases hparse
      · simp [hb]

/-- A loop over a batch of blocked items inserts nothing and leaves the
table unchanged. -/
theorem processPosts_noop (ids : List (Option String)) (nowIso : String)
    (posts : List FeedItem) : ∀ (acc : LoopAcc),
    (∀ p, p ∈ posts → Blocked acc.articles p) →
    (processPosts ids nowIso acc posts).articles = acc.articles ∧
    (processPosts ids nowIso acc posts).inserted = acc.inserted := by
  induction posts with
  | nil => intro acc _; exact ⟨rfl, rfl⟩
  | cons q rest ih =>
    intro acc hb
    have hq := hb q (List.mem_cons_self q rest)
    have hstep := processPost_noop ids nowIso acc q hq
    have hrest : ∀ p, p ∈ rest → Blocked (processPost ids nowIso acc q).articles p := by
      intro p hp
      rw [Blocked, hstep.1]
      exact hb p (List.mem_cons_of_mem q hp)
    have htail := ih (processPost ids nowIso acc q) hrest
    rw [processPosts]
    exact ⟨htail.1.trans hstep.1, htail.2.trans hstep.2⟩

/-- A forced run with credentials reduces to the ingestion loop over the
snapshot, followed by the timestamp write. -/
theorem syncPosts_forced_eq (now : Int) (nowIso : String) (posts : List FeedItem)
    (st : SyncState) :
    syncPosts true true now nowIso (Except.ok posts) st =
      (SyncOutcome.completed
        { inserted := (processPosts (getExistingPostIds st.articles) nowIso
            { inserted := 0, skippedExisting := 0, skippedNoContent := 0,
              articles := st.articles } posts).inserted
          skippedExisting := (processPosts (getExistingPostIds st.articles) nowIso
            { inserted := 0, skippedExisting := 0, skippedNoContent := 0,
              articles := st.articles } posts).skippedExisting
          skippedNoContent := (processPosts (getExistingPostIds st.articles) nowIso
            { inserted := 0, skippedExisting := 0, skippedNoContent := 0,
              articles := st.articles } posts).skippedNoContent
          total := posts.length },
       { articles := (processPosts (getExistingPostIds st.articles) nowIso
            { inserted := 0, skippedExisting := 0, skippedNoContent := 0,
              articles := st.articles } posts).articles
         lastSync := now }) := rfl

/-- Claim C1: with `force = false`, a state inside the cooldown window
is skipped — the result does not depend on the fetch, the state is
unchanged, and the skipped result carries the rounded remaining wait in
seconds; a state at or past the cooldown proceeds to the fetch, whose
outcome then decides the run. -/
theorem c1_cooldown_gate (credsOk : Bool) (now : Int) (nowIso : String)
    (fetch : Except Unit (List FeedItem)) (st : SyncState) :
    (now - st.lastSync < SYNC_COOLDOWN →
      syncPosts false credsOk now nowIso fetch st =
        (SyncOutcome.skipped ((SYNC_COOLDOWN - (now - st.lastSync) + 500) / 1000), st)) ∧
    (SYNC_COOLDOWN ≤ now - st.lastSync → credsOk = true →
      (∀ e, fetch = Except.error e →
        (syncPosts false credsOk now nowIso fetch st).1 = SyncOutcome.feedError) ∧
      (∀ posts, fetch = Except.ok posts →
        ∃ res, (syncPosts false credsOk now nowIso fetch st).1 =
          SyncOutcome.completed res)) := by
  constructor
  · intro h
    have hs : shouldSyncAt st.lastSync now = false := by
      simp only [shouldSyncAt, decide_eq_false_iff_not]
      omega
    unfold syncPosts
    rw [if_pos ⟨rfl, hs⟩]
  · intro h hc
    subst hc
    have hs : shouldSyncAt st.lastSync now = true := by
      simp only [shouldSyncAt, decide_eq_true_eq]
      omega
    have hcond : ¬ ((false : Bool) = false ∧ shouldSyncAt st.lastSync now = false) := by
      rintro ⟨_, h2⟩
      rw [hs] at h2
      cases h2
    constructor
    · rintro e rfl
      unfold syncPosts
      rw [if_neg hcond]
      rfl
    · rintro posts rfl
      unfold syncPosts
      rw [if_neg hcond]
      exact ⟨_, rfl⟩

/-- Witness for C1 at a concrete inside-cooldown state. -/
theorem c1_cooldown_gate_witness :
    syncPosts false true 100 "" (Except.ok []) { articles := [], lastSync := 0 } =
      (SyncOutcome.skipped 300, { articles := [], lastSync := 0 }) :=
  (c1_cooldown_gate true 100 "" (Except.ok []) { articles := [], lastSync := 0 }).1
    (by decide)

/-- Claim C5: every run whose fetch succeeded sets the last-sync
timestamp to the current time, whatever the counters — in particular
also when nothing was inserted. -/
theorem c5_timestamp_update (force : Bool) (now : Int) (nowIso : String)
    (posts : List FeedItem) (st : SyncState)
    (hrun : force = true ∨ SYNC_COOLDOWN ≤ now - st.lastSync) :
    ((syncPosts force true now nowIso (Except.ok posts) st).2).lastSync = now ∧
    ∃ res, (syncPosts force true now nowIso (Except.ok posts) st).1 =
      SyncOutcome.completed res := by
  have hcond : ¬ (force = false ∧ shouldSyncAt st.lastSync now = false) := by
    rintro ⟨h1, h2⟩
    rcases hrun with h | h
    · rw [h] at h1
      cases h1
    · rw [shouldSyncAt, decide_eq_false_iff_not] at h2
      exact h2 h
  unfold syncPosts
  rw [if_neg hcond]
  exact ⟨rfl, _, rfl⟩

/-- Witness for C5: a forced run over an empty batch still sets the
timestamp though zero items were inserted. -/
theorem c5_timestamp_update_witness :
    ((syncPosts true true 7 "" (Except.ok []) { articles := [], lastSync := 0 }).2).lastSync = 7 ∧
    ∃ res, (syncPosts true true 7 "" (Except.ok []) { articles := [], lastSync := 0 }).1 =
      SyncOutcome.completed res :=
  c5_timestamp_update true 7 "" [] { articles := [], lastSync := 0 } (Or.inl rfl)

/-- Claim C6: a run that reaches the fetch and sees it fail returns the
failure and leaves the whole store state — rows and timestamp —
untouched. -/
theorem c6_feed_failure (force : Bool) (now : Int) (nowIso : String) (e : Unit)
    (st : SyncState) (hrun : force = true ∨ SYNC_COOLDOWN ≤ now - st.lastSync) :
    syncPosts force true now nowIso (Except.error e) st = (SyncOutcome.feedError, st) := by
  have hcond : ¬ (force = false ∧ shouldSyncAt st.lastSync now = false) := by
    rintro ⟨h1, h2⟩
    rcases hrun with h | h
    · rw [h] at h1
      cases h1
    · rw [shouldSyncAt, decide_eq_false_iff_not] at h2
      exact h2 h
  unfold syncPosts
  rw [if_neg hcond]
  rfl

/-- Witness for C6 at a concrete forced run. -/
theorem c6_feed_failure_witness :
    syncPosts true true 7 "" (Except.error ()) { articles := [adminArticle], lastSync := 3 } =
      (SyncOutcome.feedError, { articles := [adminArticle], lastSync := 3 }) :=
  c6_feed_failure true 7 "" () { articles := [adminArticle], lastSync := 3 } (Or.inl rfl)

/-- Claim C7: a second forced run over the same batch inserts nothing
and leaves the stored rows — hence the known-identifier snapshot —
exactly as after the first run. -/
theorem c7_idempotence (now1 now2 : Int) (iso1 iso2 : String)
    (posts : List FeedItem) (st : SyncState) :
    ∃ res2,
      (syncPosts true true now2 iso2 (Except.ok posts)
        ((syncPosts true true now1 iso1 (Except.ok posts) st).2)).1 =
          SyncOutcome.completed res2 ∧
      res2.inserted = 0 ∧
      ((syncPosts true true now2 iso2 (Except.ok posts)
        ((syncPosts true true now1 iso1 (Except.ok posts) st).2)).2).articles =
        ((syncPosts true true now1 iso1 (Except.ok posts) st).2).articles ∧
      getExistingPostIds
          ((syncPosts true true now2 iso2 (Except.ok posts)
            ((syncPosts true true now1 iso1 (Except.ok posts) st).2)).2).articles =
        getExistingPostIds
          ((syncPosts true true now1 iso1 (Except.ok posts) st).2).articles := by
  rw [syncPosts_forced_eq now1 iso1 posts st]
  dsimp only
  rw [syncPosts_forced_eq now2 iso2 posts]
  dsimp only
  have hblocked : ∀ p, p ∈ posts →
      Blocked (processPosts (getExistingPostIds st.articles) iso1
        { inserted := 0, skippedExisting := 0, skippedNoContent := 0,
          articles := st.articles } posts).articles p :=
    processPosts_blocked (getExistingPostIds st.articles) iso1 posts
      { inserted := 0, skippedExisting := 0, skippedNoContent := 0,
        articles := st.articles }
      (fun x hx => mem_getExistingPostIds st.articles x hx)
  have hno := processPosts_noop
      (getExistingPostIds (processPosts (getExistingPostIds st.articles) iso1
        { inserted := 0, skippedExisting := 0, skippedNoContent := 0,
          articles := st.articles } posts).articles) iso2 posts
      { inserted := 0, skippedExisting := 0, skippedNoContent := 0,
        articles := (processPosts (getExistingPostIds st.articles) iso1
          { inserted := 0, skippedExisting := 0, skippedNoContent := 0,
            articles := st.articles } posts).articles }
      hblocked
  refine ⟨_, rfl, hno.2, hno.1, ?_⟩
  rw [hno.1]

/-- Helper: the Bool `contains` agrees with list membership. -/
theorem contains_dot_iff (l0 : List Char) : l0.contains '.' = true ↔ '.' ∈ l0 := by
  simp

/-- Claim C2 (amended): while a lazy-triggered run is in flight, a
second Lazy Trigger call joins the in-flight run without fetching:
across the two concurrent lazy invocations exactly one fetch cycle
happens. -/
theorem c2_lazy_single_flight (st : LazyState) (due2 : Bool)
    (h : st.inFlight = false) :
    (lazySyncCall st true).1 = LazyOutcome.startedRun ∧
    (lazySyncCall st true).2.inFlight = true ∧
    (lazySyncCall (lazySyncCall st true).2 due2).1 = LazyOutcome.joinedExisting ∧
    (lazySyncCall (lazySyncCall st true).2 due2).2 = (lazySyncCall st true).2 ∧
    (lazySyncCall (lazySyncCall st true).2 due2).2.fetchCount = st.fetchCount + 1 := by
  simp [lazySyncCall, h]

/-- Witness for C2 from the idle slot. -/
theorem c2_lazy_single_flight_witness :
    (lazySyncCall { inFlight := false, fetchCount := 0 } true).1 = LazyOutcome.startedRun ∧
    (lazySyncCall { inFlight := false, fetchCount := 0 } true).2.inFlight = true ∧
    (lazySyncCall (lazySyncCall { inFlight := false, fetchCount := 0 } true).2 true).1 =
      LazyOutcome.joinedExisting ∧
    (lazySyncCall (lazySyncCall { inFlight := false, fetchCount := 0 } true).2 true).2 =
      (lazySyncCall { inFlight := false, fetchCount := 0 } true).2 ∧
    (lazySyncCall (lazySyncCall { inFlight := false, fetchCount := 0 } true).2 true).2.fetchCount =
      0 + 1 :=
  c2_lazy_single_flight { inFlight := false, fetchCount := 0 } true rfl

/-- Counterexample to C2 as stated: a direct forced `syncPosts`
invocation concurrent with an in-flight lazy run performs a second
fetch cycle — `syncPosts` itself never consults the in-flight slot, so
two concurrent invocations of the sync run can cost two fetches. -/
theorem c2_lazy_single_flight_cex :
    (lazySyncCall { inFlight := false, fetchCount := 0 } true).2.inFlight = true ∧
    (directSyncCall
      (lazySyncCall { inFlight := false, fetchCount := 0 } true).2).fetchCount = 2 := by
  decide

/-- Claim C3 (amended): each batch item takes exactly one of four
branches — duplicate-skip, content-skip, successful insert, or failed
insert — and the failed insert increments no counter at all rather than
the duplicate-skip counter. -/
theorem c3_per_item_counting (ids : List (Option String)) (nowIso : String)
    (acc : LoopAcc) (q : FeedItem) :
    (some q.id ∈ ids →
      processPost ids nowIso acc q =
        { acc with skippedExisting := acc.skippedExisting + 1 }) ∧
    (some q.id ∉ ids → parsePost q = none →
      processPost ids nowIso acc q =
        { acc with skippedNoContent := acc.skippedNoContent + 1 }) ∧
    (∀ art, some q.id ∉ ids → parsePost q = some art →
      some q.id ∉ acc.articles.map (fun a => a.fb_post_id) →
      processPost ids nowIso acc q =
        { acc with
            inserted := acc.inserted + 1
            articles := acc.articles ++ [mkArticle art nowIso] }) ∧
    (∀ art, some q.id ∉ ids → parsePost q = some art →
      some q.id ∈ acc.articles.map (fun a => a.fb_post_id) →
      processPost ids nowIso acc q = acc) := by
  refine ⟨?_, ?_, ?_, ?_⟩
  · intro h
    unfold processPost
    rw [if_pos h]
  · intro h hp
    unfold processPost
    rw [if_neg h, hp]
  · intro art h hp hc
    unfold processPost
    rw [if_neg h, hp]
    dsimp only
    rw [if_neg hc]
  · intro art h hp hc
    unfold processPost
    rw [if_neg h, hp]
    dsimp only
    rw [if_pos hc]

/-- Witness for C3: the failed-insert branch at a concrete item leaves
the accumulator untouched. -/
theorem c3_per_item_counting_witness :
    processPost [] "iso"
      { inserted := 1, skippedExisting := 0, skippedNoContent := 0,
        articles := [mkArticle
          { fb_post_id := "X", headline := "Hello world news".toList,
            body := "Some body".toList, image_url := none,
            published_at := "t", source_url := none } "iso"] } samplePost =
      { inserted := 1, skippedExisting := 0, skippedNoContent := 0,
        articles := [mkArticle
          { fb_post_id := "X", headline := "Hello world news".toList,
            body := "Some body".toList, image_url := none,
            published_at := "t", source_url := none } "iso"] } :=
  (c3_per_item_counting [] "iso"
      { inserted := 1, skippedExisting := 0, skippedNoContent := 0,
        articles := [mkArticle
          { fb_post_id := "X", headline := "Hello world news".toList,
            body := "Some body".toList, image_url := none,
            published_at := "t", source_url := none } "iso"] } samplePost).2.2.2
    { fb_post_id := "X", headline := "Hello world news".toList,
      body := "Some body".toList, image_url := none,
      published_at := "t", source_url := none }
    (by decide) (by decide) (by decide)

/-- Counterexample to C3 as stated: the same parseable item twice in one
batch; the second INSERT fails and is counted in no counter, so the
counters sum to 1 over a batch of 2 and the duplicate-skip counter
stays 0. -/
theorem c3_per_item_counting_cex :
    (syncPosts true true 0 "" (Except.ok [samplePost, samplePost])
        { articles := [], lastSync := 0 }).1 =
      SyncOutcome.completed
        { inserted := 1, skippedExisting := 0, skippedNoContent := 0, total := 2 } ∧
    1 + 0 + 0 ≠ 2 := ⟨by decide, by decide⟩

/-- Claim C4 (amended): the dedup snapshot holds exactly the external
ids of rows whose provenance tag is `facebook` — whatever their
visibility or modified state — and omits rows of any other
provenance. -/
theorem c4_dedup_scope (articles : List Article) (x : Option String) :
    x ∈ getExistingPostIds articles ↔
      ∃ a, a ∈ articles ∧ a.source = "facebook" ∧ a.fb_post_id = x := by
  constructor
  · intro h
    simp only [getExistingPostIds, List.mem_map, List.mem_filter] at h
    rcases h with ⟨a, ⟨ha, hsrc⟩, rfl⟩
    exact ⟨a, ha, by simpa using hsrc, rfl⟩
  · rintro ⟨a, ha, hsrc, rfl⟩
    simp only [getExistingPostIds, List.mem_map, List.mem_filter]
    exact ⟨a, ⟨ha, by simpa using hsrc⟩, rfl⟩

/-- Counterexample to C4 as stated: a stored record carrying an external
id but tagged `admin` is absent from the snapshot. -/
theorem c4_dedup_scope_cex :
    adminArticle.fb_post_id = some "X" ∧
    adminArticle ∈ [adminArticle] ∧
    getExistingPostIds [adminArticle] = [] := by
  refine ⟨rfl, List.mem_singleton_self _, by decide⟩

/-- Claim C10: the last-sync read is total and maps every failure shape
— query error, missing row, unparseable stored value — to 0, so a
failed read leaves the engine immediately due once the clock passes the
cooldown. -/
theorem c10_last_sync_read_total :
    getLastSyncTime SyncMetaRead.dbError = 0 ∧
    getLastSyncTime SyncMetaRead.noRow = 0 ∧
    (∀ s, jsParseInt s = none → getLastSyncTime (SyncMetaRead.value s) = 0) ∧
    (∀ r now, SYNC_COOLDOWN ≤ now →
      (r = SyncMetaRead.dbError ∨ r = SyncMetaRead.noRow) →
      shouldSyncAt (getLastSyncTime r) now = true) := by
  refine ⟨rfl, rfl, ?_, ?_⟩
  · intro s h
    simp only [getLastSyncTime]
    rw [h]
  · rintro r now hnow (rfl | rfl) <;>
      simp only [getLastSyncTime, shouldSyncAt, decide_eq_true_eq] <;> omega

/-- Witness for C10 at a value that fails to parse and at a query
error. -/
theorem c10_last_sync_read_total_witness :
    getLastSyncTime (SyncMetaRead.value ("abc".toList)) = 0 ∧
    shouldSyncAt (getLastSyncTime SyncMetaRead.dbError) 300000 = true :=
  ⟨c10_last_sync_read_total.2.2.1 ("abc".toList) (by decide),
   c10_last_sync_read_total.2.2.2 SyncMetaRead.dbError 300000 (by decide) (Or.inl rfl)⟩

/-- Claim C8: the parsed headline equals the first non-empty trimmed
line, except that a line over 100 characters containing a period whose
text up to the first period has at least 20 characters is cut to that
text followed by the period. -/
theorem c8_headline_heuristic (post : FeedItem) (m l0 : List Char)
    (rest : List (List Char)) (hm : post.message = some m)
    (hl : linesOf m = l0 :: rest) :
    ∃ art, parsePost post = some art ∧
      art.headline =
        if '.' ∈ l0 ∧ 100 < l0.length ∧
            20 ≤ (l0.takeWhile (fun d => d != '.')).length then
          l0.takeWhile (fun d => d != '.') ++ ['.']
        else l0 := by
  refine ⟨_, parsePost_eq post m l0 rest hm hl, ?_⟩
  dsimp only
  rw [splitOnChar_headD]
  by_cases h1 : '.' ∈ l0 <;> by_cases h2 : 100 < l0.length <;>
    by_cases h3 : 20 ≤ (l0.takeWhile (fun d => d != '.')).length <;>
    simp [h1, h2, h3, contains_dot_iff]

/-- Witness for C8: a 151-character first line with its first period
after 30 characters is cut to those 30 characters plus the period. -/
theorem c8_headline_heuristic_witness :
    ∃ art, parsePost longLinePost = some art ∧
      art.headline =
        if '.' ∈ longLine ∧ 100 < longLine.length ∧
            20 ≤ (longLine.takeWhile (fun d => d != '.')).length then
          longLine.takeWhile (fun d => d != '.') ++ ['.']
        else longLine :=
  c8_headline_heuristic longLinePost (longLine ++ ['\n'] ++ "rest".toList) longLine
    ["rest".toList] rfl (by decide)

/-- Claim C9: when the assembled body contains the dash separator
marker, the parsed body is the trimmed text strictly before the first
occurrence of the marker; everything from the marker onward is
dropped. -/
theorem c9_separator_stripping (post : FeedItem) (m l0 : List Char)
    (rest : List (List Char)) (hm : post.message = some m)
    (hl : linesOf m = l0 :: rest)
    (hsep : containsSeq SEPARATOR (joinNl rest) = true) :
    ∃ art t, parsePost post = some art ∧
      joinNl rest = takeBeforeSeq SEPARATOR (joinNl rest) ++ SEPARATOR ++ t ∧
      (∀ i, i < (takeBeforeSeq SEPARATOR (joinNl rest)).length →
        startsWith ((joinNl rest).drop i) SEPARATOR = false) ∧
      art.body = trimChars (takeBeforeSeq SEPARATOR (joinNl rest)) := by
  rcases takeBeforeSeq_decomp SEPARATOR (joinNl rest) hsep with ⟨t, ht⟩
  refine ⟨_, t, parsePost_eq post m l0 rest hm hl, ht,
    takeBeforeSeq_min SEPARATOR (joinNl rest), ?_⟩
  dsimp only
  rw [if_pos hsep]

/-- Witness for C9: a body with a 46-dash run keeps only the trimmed
text before the run. -/
theorem c9_separator_stripping_witness :
    ∃ art t, parsePost sepPost = some art ∧
      joinNl ["Text before".toList, List.replicate 46 '-', "footer".toList] =
        takeBeforeSeq SEPARATOR
          (joinNl ["Text before".toList, List.replicate 46 '-', "footer".toList]) ++
          SEPARATOR ++ t ∧
      (∀ i, i < (takeBeforeSeq SEPARATOR
          (joinNl ["Text before".toList, List.replicate 46 '-', "footer".toList])).length →
        startsWith
          ((joinNl ["Text before".toList, List.replicate 46 '-', "footer".toList]).drop i)
          SEPARATOR = false) ∧
      art.body = trimChars (takeBeforeSeq SEPARATOR
        (joinNl ["Text before".toList, List.replicate 46 '-', "footer".toList])) :=
  c9_separator_stripping sepPost sepMessage ("Head".toList)
    ["Text before".toList, List.replicate 46 '-', "footer".toList]
    rfl (by decide) (by decide)
